import Mathlib

set_option maxRecDepth 16000

/-
 Verification of the StrataSleuth document-batching and response-reconciliation
 pipeline (src/services/geminiService.ts).  That service file contains two
 concatenated revisions of the module; where the claims cite both, we embed
 both: revision v1 (file lines 1-333) and revision v2 (file lines 335-647).

 Modelling conventions:
 - JavaScript numbers are modelled as exact rationals.  parseFloat on a matched
   decimal literal, the product with 10000, Math.round and the division by
   10000 are modelled exactly; on every input appearing in a settled claim the
   binary64 computation of the source agrees with the exact one (checked by
   hand at the single tie case -0.00005, whose binary64 product is exactly
   -0.5).  Math.round rounds half-way cases toward positive infinity, i.e.
   Math.round x = Int.floor (x + 1/2), and Math.round (-0.5) is negative zero,
   which toString renders as "0".  The isFinite guard of the source is
   modelled by the double overflow threshold 2^1024.
 - Number.prototype.toString is modelled as plain decimal rendering without
   unnecessary trailing zeros, which agrees with JavaScript for the magnitudes
   appearing in the claims (below 1e15; JavaScript switches to exponent form
   only at 1e21 and below 1e-7, and 4-decimal rounding never produces a
   nonzero magnitude below 1e-4).
 - The external model service and pdf-lib are modelled as oracle parameters:
   a response oracle mapping the index of a generateContent call to its
   outcome, and a page-count oracle mapping a file to the outcome of
   PDFDocument.load(...).getPageCount().
-/

/-- The character constant for an opening curly brace. -/
def braceOpen : Char := '\x7b'

/-- The character constant for a closing curly brace. -/
def braceClose : Char := '\x7d'

/-- The backquote character used by markdown code fences. -/
def backquote : Char := Char.ofNat 96

/-- JavaScript regular-expression whitespace as used by the sanitizer.  The
source tests characters with /\s/; we model the ASCII whitespace characters
(space, tab, line feed, carriage return, vertical tab, form feed), which are
the only whitespace characters arising in the claims. -/
def isJsWs (c : Char) : Bool :=
  c == ' ' || c == '\t' || c == '\n' || c == '\r' || c == '\x0b' || c == '\x0c'

/-- The optional sign group of the numeric-literal regex of geminiService.ts
line 68. -/
def splitSign (cs : List Char) : List Char × List Char :=
  match cs with
  | '-' :: r => (['-'], r)
  | _ => ([], cs)

/-- The optional fraction group of the regex: a dot followed by at least one
digit, or nothing. -/
def numFrac (afterInt : List Char) : List Char × List Char :=
  match afterInt with
  | '.' :: r =>
    let fs := r.takeWhile Char.isDigit
    if fs = [] then ([], afterInt) else ('.' :: fs, r.dropWhile Char.isDigit)
  | _ => ([], afterInt)

/-- The optional exponent group of the regex: e or E, an optional sign and
at least one digit, or nothing. -/
def numExp (afterFrac : List Char) : List Char × List Char :=
  match afterFrac with
  | e :: r =>
    if e = 'e' ∨ e = 'E' then
      let se : List Char × List Char :=
        match r with
        | c :: r' => if c = '+' ∨ c = '-' then ([c], r') else ([], r)
        | [] => ([], r)
      let es := se.2.takeWhile Char.isDigit
      if es = [] then ([], afterFrac)
      else (e :: (se.1 ++ es), se.2.dropWhile Char.isDigit)
    else ([], afterFrac)
  | [] => ([], afterFrac)

/-- Numeric-literal matcher, embedding the source regex
/^-?\d+(\.\d+)?([eE][+-]?\d+)?/ from geminiService.ts line 68: optional
sign, mandatory digit run, optional fraction, optional exponent.  Returns
the matched literal and the rest of the input, or none when the regex does
not match at the current position. -/
def numMatch (cs : List Char) : Option (List Char × List Char) :=
  let sgn := (splitSign cs).1
  let afterSign := (splitSign cs).2
  let ds := afterSign.takeWhile Char.isDigit
  let afterInt := afterSign.dropWhile Char.isDigit
  if ds = [] then none
  else
    let frac := (numFrac afterInt).1
    let afterFrac := (numFrac afterInt).2
    some (sgn ++ ds ++ frac ++ (numExp afterFrac).1, (numExp afterFrac).2)

/-- Value of a list of decimal digit characters. -/
def digitsToNat (ds : List Char) : Nat :=
  ds.foldl (fun a c => 10 * a + (c.toNat - 48)) 0

/-- A scaled decimal: the exact rational num / 10^scale.  Every numeric
literal of the source regex denotes such a value, and all arithmetic the
sanitizer performs on it stays in this fragment, so this is an exact model of
the parsed floating-point value (see the header comment on binary64). -/
structure DecVal where
  num : Int
  scale : Nat
deriving DecidableEq

/-- The rational denoted by a scaled decimal. -/
def DecVal.toRat (v : DecVal) : ℚ :=
  (v.num : ℚ) / (10 : ℚ) ^ v.scale

/-- Exact value of a numeric literal matched by numMatch, modelling parseFloat
on such a literal. -/
def parseDec (lit : List Char) : DecVal :=
  let signSplit : Int × List Char :=
    match lit with
    | '-' :: r => (-1, r)
    | _ => (1, lit)
  let ds := signSplit.2.takeWhile Char.isDigit
  let afterInt := signSplit.2.dropWhile Char.isDigit
  let fracSplit : List Char × List Char :=
    match afterInt with
    | '.' :: r => (r.takeWhile Char.isDigit, r.dropWhile Char.isDigit)
    | _ => ([], afterInt)
  let fs := fracSplit.1
  let base : Int := signSplit.1 *
    ((digitsToNat ds : Int) * ((10 ^ fs.length : Nat) : Int) + (digitsToNat fs : Int))
  let expVal : Int :=
    match fracSplit.2 with
    | _ :: r =>
      match r with
      | '+' :: rr => (digitsToNat (rr.takeWhile Char.isDigit) : Nat)
      | '-' :: rr => -((digitsToNat (rr.takeWhile Char.isDigit) : Nat) : Int)
      | _ => (digitsToNat (r.takeWhile Char.isDigit) : Nat)
    | [] => 0
  if 0 ≤ expVal then
    if fs.length ≤ expVal.toNat then
      ⟨base * ((10 ^ (expVal.toNat - fs.length) : Nat) : Int), 0⟩
    else ⟨base, fs.length - expVal.toNat⟩
  else ⟨base, fs.length + (-expVal).toNat⟩

/-- Multiplication by 10000 of a scaled decimal, modelling num * 10000. -/
def DecVal.mulTenThousand (v : DecVal) : DecVal :=
  if 4 ≤ v.scale then ⟨v.num, v.scale - 4⟩
  else ⟨v.num * ((10 ^ (4 - v.scale) : Nat) : Int), 0⟩

/-- JavaScript Math.round on a scaled decimal: nearest integer, half-way
cases toward positive infinity, i.e. the floor of the value plus one half. -/
def DecVal.jsRound (v : DecVal) : Int :=
  (2 * v.num + ((10 ^ v.scale : Nat) : Int)).fdiv (2 * ((10 ^ v.scale : Nat) : Int))

/-- Whether the magnitude of a scaled decimal is below the binary64 overflow
threshold 2^1024, modelling isFinite(parseFloat(literal)). -/
def DecVal.isFiniteDouble (v : DecVal) : Bool :=
  v.num.natAbs < 2 ^ 1024 * 10 ^ v.scale

/-- Trailing zero digits stripped from a fraction-digit list. -/
def stripTrailingZeros (l : List Char) : List Char :=
  (l.reverse.dropWhile (· == '0')).reverse

/-- The four decimal digits of a natural number below 10000. -/
def fracDigits (n : Nat) : List Char :=
  [Char.ofNat (48 + n / 1000 % 10), Char.ofNat (48 + n / 100 % 10),
   Char.ofNat (48 + n / 10 % 10), Char.ofNat (48 + n % 10)]

/-- Rendering of the rounded number k/10000 as JavaScript toString renders it
in the magnitude range of the claims: plain decimal, no unnecessary trailing
zeros, and negative zero rendered as "0". -/
def render4 (k : Int) : String :=
  if k = 0 then "0"
  else
    let sgn := if k < 0 then "-" else ""
    let m := k.natAbs
    let ip := m / 10000
    let fr := m % 10000
    if fr = 0 then sgn ++ toString ip
    else sgn ++ toString ip ++ "." ++ String.mk (stripTrailingZeros (fracDigits fr))

/-- Replacement text for one matched numeric literal, embedding geminiService
lines 70-82: parse the literal, and when the value is finite emit
(Math.round(num * 10000) / 10000).toString(), otherwise emit "0".  parseFloat
of a matched literal is never NaN, so the isNaN guard of the source is
vacuous; isFinite is the double overflow threshold. -/
def replaceNum (lit : List Char) : String :=
  let v := parseDec lit
  if v.isFiniteDouble then render4 v.mulTenThousand.jsRound else "0"

/-- The character-by-character sanitizer loop of forensicJsonSanitize
(geminiService lines 39-88), as a fuel-indexed scan.  One fuel unit is one
iteration of the source while loop; every iteration consumes at least one
input character, so fuel equal to the input length always suffices.  The
state is the inQuote flag and the previous input character (the source reads
jsonString[i-1]; after the structural branch this is the last skipped
whitespace character, or the closer itself when none was skipped). -/
def sanitizeGo : Nat → Bool → Option Char → List Char → List Char
  | 0, _, _, _ => []
  | _ + 1, _, _, [] => []
  | fuel + 1, inQuote, prev, c :: rest =>
    if c == '"' && prev != some '\\' then
      c :: sanitizeGo fuel (!inQuote) (some c) rest
    else if !inQuote && (c == braceClose || c == ']') then
      let ws := rest.takeWhile isJsWs
      let rest' := rest.dropWhile isJsWs
      let comma : List Char :=
        match rest' with
        | d :: _ => if d == braceOpen || d == '[' then [','] else []
        | [] => []
      c :: (comma ++ sanitizeGo fuel inQuote ((c :: ws).getLast?) rest')
    else if !inQuote then
      match numMatch (c :: rest) with
      | some (lit, rest') =>
        (replaceNum lit).data ++ sanitizeGo fuel inQuote lit.getLast? rest'
      | none => c :: sanitizeGo fuel inQuote (some c) rest
    else
      c :: sanitizeGo fuel inQuote (some c) rest

/-- forensicJsonSanitize (geminiService v1 lines 34-91): the full
character-by-character repair pass. -/
def forensicJsonSanitize (s : String) : String :=
  String.mk (sanitizeGo s.data.length false none s.data)

/-- The sanitizer as a list transformation (fuel instantiated at the input
length, which the termination claim C10 shows is always enough). -/
def forensicList (cs : List Char) : List Char :=
  sanitizeGo cs.length false none cs

/-- Removal of every occurrence of the markdown fence opener followed by the
word json, embedding str.replace on that fixed pattern: leftmost occurrence,
scanning resumes after the removed text. -/
def stripTicksJson : List Char → List Char
  | c1 :: c2 :: c3 :: 'j' :: 's' :: 'o' :: 'n' :: rest =>
    if c1 == backquote && c2 == backquote && c3 == backquote then
      stripTicksJson rest
    else c1 :: stripTicksJson (c2 :: c3 :: 'j' :: 's' :: 'o' :: 'n' :: rest)
  | c :: rest => c :: stripTicksJson rest
  | [] => []

/-- Removal of every occurrence of three consecutive backquotes. -/
def stripTicks : List Char → List Char
  | c1 :: c2 :: c3 :: rest =>
    if c1 == backquote && c2 == backquote && c3 == backquote then
      stripTicks rest
    else c1 :: stripTicks (c2 :: c3 :: rest)
  | c :: rest => c :: stripTicks rest
  | [] => []

/-- String.prototype.trim on a character list (whitespace at both ends). -/
def trimWs (cs : List Char) : List Char :=
  ((cs.dropWhile isJsWs).reverse.dropWhile isJsWs).reverse

/-- Index of the last closing brace, modelling lastIndexOf. -/
def lastIdxClose (cs : List Char) : Option Nat :=
  match (cs.reverse).findIdx? (· == braceClose) with
  | some k => some (cs.length - 1 - k)
  | none => none

/-- Error message constants of the source, quoted verbatim (the corrupted-data
message elides the interpolated JavaScript parse-error text). -/
def msgIncomplete : String :=
  "The forensic report was incomplete or missing valid data structures."

/-- Corrupted-stream error of cleanJsonString v1. -/
def msgCorrupted : String :=
  "Forensic Audit Interrupted: The data stream was corrupted. Please try a smaller document batch."

/-- Empty-response error of runAnalysisBatch v1 (line 306). -/
def msgEmptyResponse : String :=
  "Empty response from building audit. The model may have timed out or hit complexity limits."

/-- Missing-text error of runAnalysisBatch v2 (line 600). -/
def msgNoText : String :=
  "The AI agent failed to return analysis data. Please try again."

/-- Parse-failure error of runAnalysisBatch v2 (line 606). -/
def msgBadFormat : String :=
  "The property report could not be formatted correctly. Try splitting your documents."

/-- Zero-results error of analyzeProperty v2 (line 638). -/
def msgNoData : String :=
  "No analysis data could be retrieved from the documents."

/-- The textual part of cleanJsonString v1 (lines 93-106): strip markdown
fences, trim, isolate the substring from the first opening to the last
closing brace (failing when either is absent), then run the forensic
character scan. -/
def sanitizePipelineText (raw : String) : Except String String :=
  let cleaned := trimWs (stripTicks (stripTicksJson raw.data))
  match cleaned.findIdx? (· == braceOpen), lastIdxClose cleaned with
  | some s, some e =>
    .ok (String.mk (forensicList ((cleaned.drop s).take (e + 1 - s))))
  | _, _ => .error msgIncomplete

/-- Parsed JSON values.  Numbers are kept as exact scaled decimals (JSON.parse
reads them into binary64; the exact value determines the double, and the
claims only compare values whose doubles differ). -/
inductive Json where
  | null
  | bool (b : Bool)
  | num (v : DecVal)
  | str (s : String)
  | arr (elems : List Json)
  | obj (mems : List (String × Json))

/-- JSON grammar whitespace (the four characters JSON.parse skips). -/
def isJsonWs (c : Char) : Bool :=
  c == ' ' || c == '\t' || c == '\n' || c == '\r'

/-- Hexadecimal digit value. -/
def hexVal (c : Char) : Option Nat :=
  if c.isDigit then some (c.toNat - 48)
  else if 'a' ≤ c ∧ c ≤ 'f' then some (c.toNat - 87)
  else if 'A' ≤ c ∧ c ≤ 'F' then some (c.toNat - 55)
  else none

/-- JSON string body parser: consumes characters after the opening quote up
to and including the closing quote, decoding escapes as JSON.parse does
(lone surrogates are not modelled; no claim input contains them). -/
def parseJStr : List Char → Option (List Char × List Char)
  | [] => none
  | '"' :: r => some ([], r)
  | '\\' :: e :: r =>
    match e with
    | '"' => (parseJStr r).map (fun p => ('"' :: p.1, p.2))
    | '\\' => (parseJStr r).map (fun p => ('\\' :: p.1, p.2))
    | '/' => (parseJStr r).map (fun p => ('/' :: p.1, p.2))
    | 'n' => (parseJStr r).map (fun p => ('\n' :: p.1, p.2))
    | 't' => (parseJStr r).map (fun p => ('\t' :: p.1, p.2))
    | 'r' => (parseJStr r).map (fun p => ('\r' :: p.1, p.2))
    | 'b' => (parseJStr r).map (fun p => ('\x08' :: p.1, p.2))
    | 'f' => (parseJStr r).map (fun p => ('\x0c' :: p.1, p.2))
    | 'u' =>
      match r with
      | h1 :: h2 :: h3 :: h4 :: r' =>
        match hexVal h1, hexVal h2, hexVal h3, hexVal h4 with
        | some a, some b, some c, some d =>
          (parseJStr r').map (fun p =>
            (Char.ofNat (((a * 16 + b) * 16 + c) * 16 + d) :: p.1, p.2))
        | _, _, _, _ => none
      | _ => none
    | _ => none
  | c :: r =>
    if c.toNat < 32 then none
    else (parseJStr r).map (fun p => (c :: p.1, p.2))

/-- JSON number parser (JSON grammar: optional minus, 0 or nonzero-led
digits, optional fraction, optional exponent), yielding the exact value. -/
def parseJNum (cs : List Char) : Option (DecVal × List Char) :=
  let signSplit : Int × List Char :=
    match cs with
    | '-' :: r => (-1, r)
    | _ => (1, cs)
  let ds := signSplit.2.takeWhile Char.isDigit
  let afterInt := signSplit.2.dropWhile Char.isDigit
  if ds = [] then none
  else if 2 ≤ ds.length ∧ ds.headI = '0' then none
  else
    let fracSplit : Option (List Char) × List Char :=
      match afterInt with
      | '.' :: r =>
        let fs := r.takeWhile Char.isDigit
        if fs = [] then (none, afterInt) else (some fs, r.dropWhile Char.isDigit)
      | _ => (some [], afterInt)
    match fracSplit.1 with
    | none => none
    | some fs =>
      let expSplit : Option Int × List Char :=
        match fracSplit.2 with
        | e :: r =>
          if e = 'e' ∨ e = 'E' then
            let se : Int × List Char :=
              match r with
              | '+' :: rr => (1, rr)
              | '-' :: rr => (-1, rr)
              | _ => (1, r)
            let es := se.2.takeWhile Char.isDigit
            if es = [] then (none, fracSplit.2)
            else (some (se.1 * (digitsToNat es : Nat)), se.2.dropWhile Char.isDigit)
          else (some 0, fracSplit.2)
        | [] => (some 0, fracSplit.2)
      match expSplit.1 with
      | none => none
      | some ex =>
        let base : Int := signSplit.1 *
          ((digitsToNat ds : Int) * ((10 ^ fs.length : Nat) : Int) + (digitsToNat fs : Int))
        let v : DecVal :=
          if 0 ≤ ex then
            if fs.length ≤ ex.toNat then ⟨base * ((10 ^ (ex.toNat - fs.length) : Nat) : Int), 0⟩
            else ⟨base, fs.length - ex.toNat⟩
          else ⟨base, fs.length + (-ex).toNat⟩
        some (v, expSplit.2)

mutual

/-- JSON value parser with fuel (each recursive call follows consumption of
at least one character, so fuel beyond the input length never runs out). -/
def parseJVal : Nat → List Char → Option (Json × List Char)
  | 0, _ => none
  | fuel + 1, cs0 =>
    let cs := cs0.dropWhile isJsonWs
    match cs with
    | [] => none
    | c :: r =>
      if c == braceOpen then
        let r' := r.dropWhile isJsonWs
        match r' with
        | d :: r2 =>
          if d == braceClose then some (Json.obj [], r2)
          else (parseJMems fuel r').map (fun p => (Json.obj p.1, p.2))
        | [] => none
      else if c == '[' then
        let r' := r.dropWhile isJsonWs
        match r' with
        | d :: r2 =>
          if d == ']' then some (Json.arr [], r2)
          else (parseJElems fuel r').map (fun p => (Json.arr p.1, p.2))
        | [] => none
      else if c == '"' then
        (parseJStr r).map (fun p => (Json.str (String.mk p.1), p.2))
      else
        match cs with
        | 't' :: 'r' :: 'u' :: 'e' :: rest => some (Json.bool true, rest)
        | 'f' :: 'a' :: 'l' :: 's' :: 'e' :: rest => some (Json.bool false, rest)
        | 'n' :: 'u' :: 'l' :: 'l' :: rest => some (Json.null, rest)
        | _ => (parseJNum cs).map (fun p => (Json.num p.1, p.2))

/-- JSON object member list parser (positioned at the first member). -/
def parseJMems : Nat → List Char → Option (List (String × Json) × List Char)
  | 0, _ => none
  | fuel + 1, cs0 =>
    let cs := cs0.dropWhile isJsonWs
    match cs with
    | '"' :: r =>
      match parseJStr r with
      | none => none
      | some (key, r1) =>
        match r1.dropWhile isJsonWs with
        | ':' :: r2 =>
          match parseJVal fuel r2 with
          | none => none
          | some (v, r3) =>
            match r3.dropWhile isJsonWs with
            | ',' :: r4 =>
              (parseJMems fuel r4).map (fun p =>
                ((String.mk key, v) :: p.1, p.2))
            | d :: r4 =>
              if d == braceClose then some ([(String.mk key, v)], r4) else none
            | [] => none
        | _ => none
    | _ => none

/-- JSON array element list parser (positioned at the first element). -/
def parseJElems : Nat → List Char → Option (List Json × List Char)
  | 0, _ => none
  | fuel + 1, cs =>
    match parseJVal fuel cs with
    | none => none
    | some (v, r1) =>
      match r1.dropWhile isJsonWs with
      | ',' :: r2 => (parseJElems fuel r2).map (fun p => (v :: p.1, p.2))
      | ']' :: r2 => some ([v], r2)
      | _ => none

end

/-- JSON.parse on a string: one value, then only whitespace to the end. -/
def jsonParse (s : String) : Option Json :=
  match parseJVal (s.data.length + 1) s.data with
  | some (j, rest) => if rest.dropWhile isJsonWs = [] then some j else none
  | none => none

/-- Trailing-comma repair of the v1 fallback and v2 cleaner: every comma
followed (after whitespace) by a closing bracket or brace is removed,
scanning resuming after the closer, embedding the global replace of the
pattern comma-whitespace-closer by the closer. -/
def stripTrailingCommas : Nat → List Char → List Char
  | 0, cs => cs
  | _, [] => []
  | fuel + 1, c :: rest =>
    if c == ',' then
      let r1 := rest.dropWhile isJsWs
      match r1 with
      | d :: r2 =>
        if d == braceClose || d == ']' then d :: stripTrailingCommas fuel r2
        else c :: stripTrailingCommas fuel rest
      | [] => c :: stripTrailingCommas fuel rest
    else c :: stripTrailingCommas fuel rest

/-- Identifier characters of the bare-key repair pattern. -/
def isWordChar (c : Char) : Bool :=
  c.isAlphanum || c == '_'

/-- Bare-key repair of the v1 fallback: after an opening brace or comma
(keeping it and the following whitespace), a run of identifier characters
followed (after dropped whitespace) by a colon is wrapped in quotes. -/
def quoteBareKeys : Nat → List Char → List Char
  | 0, cs => cs
  | _, [] => []
  | fuel + 1, c :: rest =>
    if c == braceOpen || c == ',' then
      let ws := rest.takeWhile isJsWs
      let r1 := rest.dropWhile isJsWs
      let key := r1.takeWhile isWordChar
      let r2 := r1.dropWhile isWordChar
      if key = [] then c :: quoteBareKeys fuel rest
      else
        match r2.dropWhile isJsWs with
        | ':' :: r4 =>
          c :: (ws ++ '"' :: (key ++ '"' :: ':' :: quoteBareKeys fuel r4))
        | _ => c :: quoteBareKeys fuel rest
    else c :: quoteBareKeys fuel rest

/-- cleanJsonString of revision v1 (lines 93-125): textual sanitization, a
parse attempt, one fallback repair pass (trailing commas, then bare keys)
with a second parse attempt, and the corrupted-stream error otherwise. -/
def cleanJsonString (raw : String) : Except String Json :=
  match sanitizePipelineText raw with
  | .error e => .error e
  | .ok cleaned =>
    match jsonParse cleaned with
    | some j => .ok j
    | none =>
      let repaired :=
        quoteBareKeys cleaned.data.length
          (stripTrailingCommas cleaned.data.length cleaned.data)
      match jsonParse (String.mk repaired) with
      | some j => .ok j
      | none => .error msgCorrupted

/-- Long-float truncation of the v2 cleaner: a digit run, a dot and at least
five fraction digits are truncated to four fraction digits (the global
replace of more-than-ten-decimals in the source comment, actually any fifth
decimal digit, per the regex on line 388). -/
def truncLongFloats : Nat → List Char → List Char
  | 0, cs => cs
  | _, [] => []
  | fuel + 1, c :: rest =>
    if c.isDigit then
      let ds := (c :: rest).takeWhile Char.isDigit
      let r1 := (c :: rest).dropWhile Char.isDigit
      match r1 with
      | '.' :: r2 =>
        let fs := r2.takeWhile Char.isDigit
        if 5 ≤ fs.length then
          ds ++ '.' :: (fs.take 4 ++ truncLongFloats fuel (r2.dropWhile Char.isDigit))
        else c :: truncLongFloats fuel rest
      | _ => c :: truncLongFloats fuel rest
    else c :: truncLongFloats fuel rest

/-- cleanJsonString of revision v2 (lines 375-394): strip fences, trim,
isolate the brace-delimited block when both braces are present (no failure
otherwise), truncate over-long floats, drop trailing commas.  Purely
textual; v2 parses the result separately. -/
def cleanJsonStringV2 (str : String) : String :=
  let cleaned := trimWs (stripTicks (stripTicksJson str.data))
  let isolated :=
    match cleaned.findIdx? (· == braceOpen), lastIdxClose cleaned with
    | some s, some e => (cleaned.drop s).take (e + 1 - s)
    | _, _ => cleaned
  let truncated := truncLongFloats isolated.length isolated
  String.mk (stripTrailingCommas truncated.length truncated)

/-- An uploaded document (types.ts lines 37-41): name, MIME type, and the
base64-encoded payload kept opaque. -/
structure UploadedFile where
  name : String
  type : String
  base64 : String
deriving DecidableEq

/-- The page budget per chunk, MAX_PAGES_PER_BUCKET (both revisions use 250). -/
def MAX_PAGES_PER_BUCKET : Nat := 250

/-- Page-index blocks of the splitting loop of splitLargePdf: for i = 0, B,
2B, ... below the total, the block of indices from i to min(i + B, total),
written as the map image of the iteration count (iteration k has i = k * B,
and there are ceil(total / B) iterations). -/
def splitIndices (B total : Nat) : List (List Nat) :=
  (List.range ((total + B - 1) / B)).map (fun k =>
    List.range' (k * B) (min (k * B + B) total - k * B))

/-- Chunk name of revision v1, appending the part suffix to the original
name, embedding line 144. -/
def partName (base : String) (k : Nat) : String :=
  base ++ " (Part " ++ toString (k + 1) ++ ")"

/-- splitLargePdf of revision v1 (lines 127-150).  The page-count oracle pc
models PDFDocument.load followed by getPageCount and yields either the page
count or the thrown error; the sub-document oracle sub models the bytes of
the saved sub-document built from a block of page indices.  The source
try/catch returns the file unchanged on any failure. -/
def splitLargePdf (pc : UploadedFile → Except String Nat)
    (sub : UploadedFile → List Nat → String) (file : UploadedFile) :
    List UploadedFile :=
  if file.type ≠ "application/pdf" then [file]
  else
    match pc file with
    | .error _ => [file]
    | .ok totalPages =>
      if totalPages ≤ MAX_PAGES_PER_BUCKET then [file]
      else
        (List.range ((totalPages + MAX_PAGES_PER_BUCKET - 1) / MAX_PAGES_PER_BUCKET)).map
          (fun k =>
            { file with
              name := partName file.name k
              base64 := sub file ((splitIndices MAX_PAGES_PER_BUCKET totalPages).getD k []) })

/-- Chunk name of revision v2, appending the page-range suffix, embedding
line 420. -/
def pagesName (base : String) (i e : Nat) : String :=
  base ++ " (Pages " ++ toString (i + 1) ++ "-" ++ toString e ++ ")"

/-- splitLargePdf of revision v2 (lines 399-425): same splitting loop, but
no try/catch — a failure of the page-count oracle propagates to the caller. -/
def splitLargePdfV2 (pc : UploadedFile → Except String Nat)
    (sub : UploadedFile → List Nat → String) (file : UploadedFile) :
    Except String (List UploadedFile) :=
  if file.type ≠ "application/pdf" then .ok [file]
  else
    match pc file with
    | .error e => .error e
    | .ok totalPages =>
      if totalPages ≤ MAX_PAGES_PER_BUCKET then .ok [file]
      else
        .ok ((List.range ((totalPages + MAX_PAGES_PER_BUCKET - 1) / MAX_PAGES_PER_BUCKET)).map
          (fun k =>
            { file with
              name := pagesName file.name (k * MAX_PAGES_PER_BUCKET)
                (min (k * MAX_PAGES_PER_BUCKET + MAX_PAGES_PER_BUCKET) totalPages)
              base64 := sub file ((splitIndices MAX_PAGES_PER_BUCKET totalPages).getD k []) }))

/-- The pair batching common to both revisions: slices of two consecutive
chunks taken until the list is exhausted (v1 lines 324-328 take the slices
inside the invocation loop, v2 lines 626-629 materialize them first; both
slice the chunk list at indices 0, 2, 4, ...). -/
def planBatches {α : Type} : List α → List (List α)
  | [] => []
  | [a] => [[a]]
  | a :: b :: rest => [a, b] :: planBatches rest

/-- Outcome of one generateContent call: the response text, or a thrown
transport error. -/
abbrev Reply := Except String String

/-- Record of one model invocation: whether it was a synthesis call and
which files were attached. -/
structure CallRecord where
  isSynthesis : Bool
  files : List UploadedFile
deriving DecidableEq

/-- runAnalysisBatch of revision v1 (lines 152-310) given the outcome of its
single generateContent call: a transport error propagates; empty or
whitespace-only text raises the empty-response error (line 305); otherwise
the text goes through cleanJsonString.  The prompt text and schema do not
influence control flow and are omitted. -/
def runAnalysisBatch (reply : Reply) : Except String Json :=
  match reply with
  | .error e => .error e
  | .ok text =>
    if text = "" ∨ String.mk (trimWs text.data) = "" then .error msgEmptyResponse
    else cleanJsonString text

/-- runAnalysisBatch of revision v2 (lines 428-608): missing text raises the
no-text error (line 600); otherwise JSON.parse of the cleaned text, with the
format error when parsing throws (lines 602-607). -/
def runAnalysisBatchV2 (reply : Reply) : Except String Json :=
  match reply with
  | .error e => .error e
  | .ok text =>
    if text = "" then .error msgNoText
    else
      match jsonParse (cleanJsonStringV2 text) with
      | some j => .ok j
      | none => .error msgBadFormat

/-- The response oracle advanced past its first entry (the next sequential
model call reads index 0 of the shifted oracle). -/
def shiftOracle (oracle : Nat → Reply) : Nat → Reply :=
  fun k => oracle (k + 1)

/-- The sequential per-batch invocation loop shared by both revisions (v1
lines 324-328, v2 lines 631-635): one model call per batch in order, pushing
each result, aborting the run on the first failure.  The call at position k
of the loop consumes oracle index k; the log records every call made with
its attached files. -/
def batchLoop (run : Reply → Except String Json) (oracle : Nat → Reply) :
    List (List UploadedFile) → Except String (List Json) × List CallRecord
  | [] => (.ok [], [])
  | b :: bs =>
    match run (oracle 0) with
    | .error e => (.error e, [⟨false, b⟩])
    | .ok r =>
      let rest := batchLoop run (shiftOracle oracle) bs
      (rest.1.map (fun l => r :: l), ⟨false, b⟩ :: rest.2)

/-- analyzeProperty of revision v1 (lines 312-333): split every file, then
either a single extraction call when at most two chunks exist, or one call
per pair of chunks followed by a synthesis call on the collected partial
results (the synthesis call attaches no files). -/
def analyzeProperty (pc : UploadedFile → Except String Nat)
    (sub : UploadedFile → List Nat → String) (oracle : Nat → Reply)
    (files : List UploadedFile) : Except String Json × List CallRecord :=
  let processed := (files.map (splitLargePdf pc sub)).flatten
  if 2 < processed.length then
    let batches := planBatches processed
    let loop := batchLoop runAnalysisBatch oracle batches
    match loop.1 with
    | .error e => (.error e, loop.2)
    | .ok _ => (runAnalysisBatch (oracle batches.length), loop.2 ++ [⟨true, []⟩])
  else (runAnalysisBatch (oracle 0), [⟨false, processed⟩])

/-- The splitting loop of analyzeProperty v2 (lines 619-623): sequential,
and a splitter failure aborts the run at once. -/
def splitAllV2 (pc : UploadedFile → Except String Nat)
    (sub : UploadedFile → List Nat → String) :
    List UploadedFile → Except String (List UploadedFile)
  | [] => .ok []
  | f :: fs =>
    match splitLargePdfV2 pc sub f with
    | .error e => .error e
    | .ok s =>
      match splitAllV2 pc sub fs with
      | .error e => .error e
      | .ok rest => .ok (s ++ rest)

/-- The tail of analyzeProperty v2 after batching (lines 631-646): run the
batch loop, fail with the no-data error when no result was produced, return
a single result unchanged, and otherwise make one synthesis call. -/
def finishBatchesV2 (oracle : Nat → Reply)
    (batches : List (List UploadedFile)) : Except String Json × List CallRecord :=
  let loop := batchLoop runAnalysisBatchV2 oracle batches
  match loop.1 with
  | .error e => (.error e, loop.2)
  | .ok results =>
    match results with
    | [] => (.error msgNoData, loop.2)
    | [r] => (.ok r, loop.2)
    | _ => (runAnalysisBatchV2 (oracle batches.length), loop.2 ++ [⟨true, []⟩])

/-- analyzeProperty of revision v2 (lines 611-647). -/
def analyzePropertyV2 (pc : UploadedFile → Except String Nat)
    (sub : UploadedFile → List Nat → String) (oracle : Nat → Reply)
    (files : List UploadedFile) : Except String Json × List CallRecord :=
  match splitAllV2 pc sub files with
  | .error e => (.error e, [])
  | .ok chunks => finishBatchesV2 oracle (planBatches chunks)

/-- Example inputs and outputs used by the concrete theorems below. -/
def exRound : String := "\"value\": 0.123456789"

/-- Sanitized form of exRound. -/
def exRoundOut : String := "\"value\": 0.1235"

/-- Exponent-form tiny literal input. -/
def exTiny : String := "\"value\": 1e-20"

/-- Sanitized form of exTiny. -/
def exTinyOut : String := "\"value\": 0"

/-- The negative half-way literal of the numeric rule. -/
def exNegHalf : String := "\"value\": -0.00005"

/-- What the code produces for exNegHalf. -/
def exNegHalfOut : String := "\"value\": 0"

/-- What the claim says exNegHalf sanitizes to. -/
def exNegHalfClaim : String := "\"value\": -0.0001"

/-- A closer directly followed by an opener, outside quotes. -/
def exPair : String := "\x7d\x7b"

/-- Sanitized form of exPair: a comma is inserted. -/
def exPairOut : String := "\x7d,\x7b"

/-- The same closer-opener pair inside a quoted string. -/
def exQuoted : String := "\"a\x7d\x7bb\""

/-- A string literal ending in an escaped backslash, followed by another
string holding a long number: the naive escape test inverts the quote
tracking here. -/
def exEscape : String := "\"a\\\\\":\"0.123456789\""

/-- What the code produces for exEscape: the second string literal's content
is rewritten. -/
def exEscapeOut : String := "\"a\\\\\":\"0.1235\""

/-- An exponent literal directly followed by a dot and digits: sanitization
merges the replacement with the following characters into a new literal. -/
def exMerge : String := "\x7b\"a\":1e-20.34567\x7d"

/-- First sanitization of exMerge. -/
def exMergeS : String := "\x7b\"a\":0.34567\x7d"

/-- Second sanitization of exMergeS: the merged literal is rounded again. -/
def exMergeS2 : String := "\x7b\"a\":0.3457\x7d"

/-- A canonical sanitized text, fixed by re-sanitization. -/
def exFixed : String := "\x7b\"a\":0.1235\x7d"

/-- The object key of the example texts. -/
def keyA : String := "a"

/-- A well-formed model response. -/
def goodText : String := "\x7b\"riskScore\":5\x7d"

/-- The key of goodText. -/
def keyRisk : String := "riskScore"

/-- The parse of goodText. -/
def goodJson : Json := Json.obj [(keyRisk, Json.num ⟨5, 0⟩)]

/-- A five-page PDF document. -/
def docA : UploadedFile := { name := "report.pdf", type := "application/pdf", base64 := "QUJD" }

/-- A corrupt PDF document. -/
def badPdf : UploadedFile := { name := "bad.pdf", type := "application/pdf", base64 := "corrupt" }

/-- The error thrown by the page-count oracle on badPdf. -/
def errLoad : String := "Failed to parse PDF document"

/-- Page-count oracle reporting five pages for every file. -/
def pcFive : UploadedFile → Except String Nat := fun _ => .ok 5

/-- Page-count oracle that always throws. -/
def pcBad : UploadedFile → Except String Nat := fun _ => .error errLoad

/-- Sub-document byte oracle. -/
def subBytes : UploadedFile → List Nat → String := fun _ _ => "SUB"

/-- Response oracle answering every call with goodText. -/
def oracleGood : Nat → Reply := fun _ => .ok goodText

/-- Response oracle: empty text on the first two calls, goodText afterwards
(the scenario of claim C1). -/
def oracleEmptyTwice : Nat → Reply := fun k => if k ≤ 1 then .ok "" else .ok goodText

/-- Lookup of a numeric field in a parse result. -/
def getNum (r : Option Json) (key : String) : Option DecVal :=
  match r with
  | some (Json.obj mems) =>
    match mems.lookup key with
    | some (Json.num v) => some v
    | _ => none
  | _ => none

/-- The double-quote character as a one-character string. -/
def quoteStr : String := "\""

/-- The string-literal body of the quoted structural example. -/
def exInner : String := "a\x7d\x7bb"

/-- C7: the pair batching is a partition of the chunk sequence — flattening
the batches in order reproduces the chunk list exactly (so every chunk is in
exactly one batch, none dropped or duplicated, order preserved), and every
batch is nonempty with at most two chunks. -/
theorem claim7_batch_partition (chunks : List UploadedFile) :
    (planBatches chunks).flatten = chunks ∧
    ∀ b ∈ planBatches chunks, b ≠ [] ∧ b.length ≤ 2 := by
  induction chunks using planBatches.induct with
  | case1 => simp [planBatches]
  | case2 a => simp [planBatches]
  | case3 a b rest ih =>
    constructor
    · simp [planBatches, ih.1]
    · intro bb hbb
      simp only [planBatches, List.mem_cons] at hbb
      rcases hbb with h | h
      · subst h; simp
      · exact ih.2 bb h

/-- C7 witness: the partition property evaluated on a concrete three-chunk
list, where the planner yields a pair and a singleton. -/
theorem claim7_batch_partition_witness :
    (planBatches [docA, badPdf, docA]).flatten = [docA, badPdf, docA] ∧
    ([docA, badPdf] ≠ [] ∧ [docA, badPdf].length ≤ 2) :=
  ⟨(claim7_batch_partition [docA, badPdf, docA]).1,
   (claim7_batch_partition [docA, badPdf, docA]).2 [docA, badPdf] (by decide)⟩

/-- C2 counterexample: the sanitizer maps the input with literal -0.00005 to
0, not to -0.0001 as the claim states — Math.round(-0.5) is negative zero. -/
theorem claim2_counterexample :
    forensicJsonSanitize exNegHalf = exNegHalfOut ∧ exNegHalfOut ≠ exNegHalfClaim :=
  ⟨by decide, by decide⟩

/-- C3 counterexample: on a text whose first string literal ends in an
escaped backslash, the quote tracking inverts and the sanitizer rewrites the
content of the second string literal, so sanitization is not
content-preserving on string literals. -/
theorem claim3_counterexample :
    forensicJsonSanitize exEscape = exEscapeOut ∧ exEscapeOut ≠ exEscape :=
  ⟨by decide, by decide⟩

/-- C9 counterexample: the text exMergeS is itself the output of the full
sanitization pipeline (on exMerge) and parses as valid JSON with field a =
0.34567, yet sanitizing it again yields a text parsing to a = 0.3457 — the
pipeline is not idempotent on sanitized valid texts. -/
theorem claim9_counterexample :
    sanitizePipelineText exMerge = .ok exMergeS ∧
    jsonParse exMergeS = some (Json.obj [(keyA, Json.num ⟨34567, 5⟩)]) ∧
    sanitizePipelineText exMergeS = .ok exMergeS2 ∧
    jsonParse exMergeS2 = some (Json.obj [(keyA, Json.num ⟨3457, 4⟩)]) ∧
    getNum (jsonParse exMergeS) keyA ≠ getNum (jsonParse exMergeS2) keyA ∧
    DecVal.toRat ⟨34567, 5⟩ ≠ DecVal.toRat ⟨3457, 4⟩ :=
  ⟨by rfl, by rfl, by rfl, by rfl, by decide, by norm_num [DecVal.toRat]⟩

/-- C1 counterexample: with a model returning empty text on the first two
calls and a valid report on the third, the v1 orchestrator fails with the
empty-response error after a single call — there is no retry — even though
the third reply would have produced a valid report. -/
theorem claim1_counterexample :
    analyzeProperty pcFive subBytes oracleEmptyTwice [docA] =
      (.error msgEmptyResponse, [⟨false, [docA]⟩]) ∧
    oracleEmptyTwice 2 = .ok goodText ∧
    runAnalysisBatch (oracleEmptyTwice 2) = .ok goodJson :=
  ⟨by rfl, by rfl, by rfl⟩

/-- C4 counterexample: on an empty document list the v1 orchestrator does
not fail at all — it makes one extraction model call with no attached files
and returns that call's report. -/
theorem claim4_counterexample :
    analyzeProperty pcFive subBytes oracleGood [] =
      (.ok goodJson, [⟨false, ([] : List UploadedFile)⟩]) ∧
    (analyzeProperty pcFive subBytes oracleGood []).2.length = 1 :=
  ⟨by rfl, by rfl⟩

/-- C6 counterexample: the v2 splitter has no failure handling — a
page-count failure propagates out of the splitter and surfaces to the caller
of the analysis run, before any model call. -/
theorem claim6_counterexample :
    splitLargePdfV2 pcBad subBytes badPdf = .error errLoad ∧
    analyzePropertyV2 pcBad subBytes oracleGood [badPdf] = (.error errLoad, []) :=
  ⟨by rfl, by rfl⟩

/-- The empty response text. -/
def emptyText : String := ""

/-- A response oracle that always throws a transport error. -/
def oracleFail : Nat → Reply := fun _ => .error errLoad

/-- A page-count oracle reporting six hundred pages. -/
def pcSix : UploadedFile → Except String Nat := fun _ => .ok 600

/-- C4 amended: on an empty document list, revision v2 makes no model call
and fails with the no-data error after the (vacuous) splitting and batching
phases, while revision v1 performs a single extraction call with no attached
documents and returns that call's outcome; neither revision has a dedicated
empty-input check before splitting. -/
theorem claim4_empty_documents :
    (∀ pc sub oracle, analyzePropertyV2 pc sub oracle [] = (.error msgNoData, [])) ∧
    (∀ pc sub oracle, analyzeProperty pc sub oracle [] =
      (runAnalysisBatch (oracle 0), [⟨false, ([] : List UploadedFile)⟩])) :=
  ⟨fun _ _ _ => rfl, fun _ _ _ => rfl⟩

/-- C6 amended: the v1 splitter absorbs every page-count failure (and every
non-PDF document) into the single-chunk fallback and by construction never
raises, while the v2 splitter propagates a page-count failure to its
caller. -/
theorem claim6_split_failure_policy :
    (∀ pc sub f e, pc f = .error e → splitLargePdf pc sub f = [f]) ∧
    (∀ pc sub f, f.type ≠ "application/pdf" → splitLargePdf pc sub f = [f]) ∧
    (∀ pc sub f e, f.type = "application/pdf" → pc f = .error e →
      splitLargePdfV2 pc sub f = .error e) := by
  refine ⟨?_, ?_, ?_⟩
  · intro pc sub f e h
    by_cases ht : f.type = "application/pdf" <;> simp [splitLargePdf, ht, h]
  · intro pc sub f ht
    simp [splitLargePdf, ht]
  · intro pc sub f e ht h
    simp [splitLargePdfV2, ht, h]

/-- C6 amended witness: the fallback and propagation behaviours on a
concrete corrupt PDF. -/
theorem claim6_split_failure_policy_witness :
    splitLargePdf pcBad subBytes badPdf = [badPdf] ∧
    splitLargePdfV2 pcBad subBytes badPdf = .error errLoad :=
  ⟨claim6_split_failure_policy.1 pcBad subBytes badPdf errLoad rfl,
   claim6_split_failure_policy.2.2 pcBad subBytes badPdf errLoad rfl rfl⟩

/-- C1 amended: there is no retry anywhere — a transport error or empty
response fails the invocation at once; with at most two chunks the v1 run is
exactly one model call whose outcome (success or failure) is the run's
outcome, consulting only oracle index 0; and in the multi-batch loop the
first failing call aborts the run with a single logged call. -/
theorem claim1_single_attempt :
    (∀ e, runAnalysisBatch (.error e) = .error e) ∧
    runAnalysisBatch (.ok emptyText) = .error msgEmptyResponse ∧
    (∀ pc sub oracle files,
      ¬ 2 < ((files.map (splitLargePdf pc sub)).flatten).length →
      analyzeProperty pc sub oracle files =
        (runAnalysisBatch (oracle 0),
         [⟨false, (files.map (splitLargePdf pc sub)).flatten⟩])) ∧
    (∀ run oracle b bs e, run (oracle 0) = .error e →
      batchLoop run oracle (b :: bs) = (.error e, [⟨false, b⟩])) := by
  refine ⟨fun e => rfl, rfl, ?_, ?_⟩
  · intro pc sub oracle files h
    simp only [analyzeProperty, if_neg h]
  · intro run oracle b bs e h
    simp [batchLoop, h]

/-- C1 amended witness: the single-attempt behaviour evaluated on one
five-page document with a failing oracle. -/
theorem claim1_single_attempt_witness :
    analyzeProperty pcFive subBytes oracleFail [docA] =
      (runAnalysisBatch (oracleFail 0), [⟨false, [docA]⟩]) ∧
    batchLoop runAnalysisBatch oracleFail [[docA]] = (.error errLoad, [⟨false, [docA]⟩]) :=
  ⟨claim1_single_attempt.2.2.1 pcFive subBytes oracleFail [docA] (by decide),
   claim1_single_attempt.2.2.2 runAnalysisBatch oracleFail [docA] [] errLoad rfl⟩

/-- No record produced by the per-batch loop is a synthesis call. -/
theorem batchLoop_no_synthesis (run : Reply → Except String Json) :
    ∀ (bs : List (List UploadedFile)) (oracle : Nat → Reply),
      ((batchLoop run oracle bs).2.any fun rec => rec.isSynthesis) = false := by
  intro bs
  induction bs with
  | nil => intro oracle; rfl
  | cons b bs ih =>
    intro oracle
    cases h : run (oracle 0) with
    | error e => simp [batchLoop, h]
    | ok r => simp [batchLoop, h, ih]

/-- A successful batch loop yields exactly one result per batch. -/
theorem batchLoop_ok_length (run : Reply → Except String Json) :
    ∀ (bs : List (List UploadedFile)) (oracle : Nat → Reply) (res : List Json),
      (batchLoop run oracle bs).1 = .ok res → res.length = bs.length := by
  intro bs
  induction bs with
  | nil =>
    intro oracle res h
    simp only [batchLoop] at h
    cases h
    rfl
  | cons b bs ih =>
    intro oracle res h
    cases hr : run (oracle 0) with
    | error e => simp [batchLoop, hr] at h
    | ok r =>
      simp only [batchLoop, hr] at h
      cases hrest : (batchLoop run (shiftOracle oracle) bs).1 with
      | error e => rw [hrest] at h; cases h
      | ok l =>
        rw [hrest] at h
        cases h
        simp [ih (shiftOracle oracle) l hrest]

/-- C8: synthesis is invoked exactly when more than one batch produced a
partial report — a single successful batch's report is returned unchanged
with no synthesis call, the call log contains a synthesis record if and only
if there was more than one batch and the whole batch phase succeeded, and the
one-document five-page scenario performs exactly one chunk, one batch, one
extraction call and no synthesis in both revisions. -/
theorem claim8_synthesis_exactly_when_multiple :
    (splitLargePdf pcFive subBytes docA = [docA] ∧
     planBatches [docA] = [[docA]] ∧
     analyzePropertyV2 pcFive subBytes oracleGood [docA] =
       (.ok goodJson, [⟨false, [docA]⟩]) ∧
     analyzeProperty pcFive subBytes oracleGood [docA] =
       (.ok goodJson, [⟨false, [docA]⟩])) ∧
    (∀ oracle b r, runAnalysisBatchV2 (oracle 0) = .ok r →
      finishBatchesV2 oracle [b] = (.ok r, [⟨false, b⟩])) ∧
    (∀ oracle bs,
      ((finishBatchesV2 oracle bs).2.any fun rec => rec.isSynthesis) = true ↔
      (1 < bs.length ∧ (batchLoop runAnalysisBatchV2 oracle bs).1.isOk = true)) := by
  refine ⟨⟨rfl, rfl, rfl, rfl⟩, ?_, ?_⟩
  · intro oracle b r h
    simp [finishBatchesV2, batchLoop, h, Except.map]
  · intro oracle bs
    unfold finishBatchesV2
    cases hres : (batchLoop runAnalysisBatchV2 oracle bs).1 with
    | error e =>
      simp only [hres]
      rw [batchLoop_no_synthesis runAnalysisBatchV2 bs oracle]
      simp [Except.isOk, Except.toBool]
    | ok results =>
      have hlen := batchLoop_ok_length runAnalysisBatchV2 bs oracle results hres
      cases results with
      | nil =>
        simp only [hres]
        rw [batchLoop_no_synthesis runAnalysisBatchV2 bs oracle]
        simp only [List.length_nil] at hlen
        simp [← hlen]
      | cons r1 rest =>
        cases rest with
        | nil =>
          simp only [hres]
          rw [batchLoop_no_synthesis runAnalysisBatchV2 bs oracle]
          simp only [List.length_cons, List.length_nil] at hlen
          simp [← hlen]
        | cons r2 rest2 =>
          simp only [hres, List.any_append]
          simp only [List.length_cons] at hlen
          constructor
          · intro _
            refine ⟨by omega, rfl⟩
          · intro _
            simp [CallRecord.isSynthesis]

/-- C8 witness: a single successful batch returns its report unchanged with
one extraction call and no synthesis record. -/
theorem claim8_synthesis_exactly_when_multiple_witness :
    finishBatchesV2 oracleGood [[docA]] = (.ok goodJson, [⟨false, [docA]⟩]) :=
  claim8_synthesis_exactly_when_multiple.2.1 oracleGood [docA] goodJson rfl

/-- Prefixes of the splitting loop cover an initial segment of the pages. -/
theorem splitIndices_flatten_aux (B P : Nat) :
    ∀ n : Nat,
      ((List.range n).map (fun k =>
        List.range' (k * B) (min (k * B + B) P - k * B))).flatten =
      List.range' 0 (min (n * B) P) := by
  intro n
  induction n with
  | zero => simp
  | succ n ih =>
    rw [List.range_succ, List.map_append, List.flatten_append, ih]
    simp only [List.map_cons, List.map_nil, List.flatten_cons, List.flatten_nil,
      List.append_nil]
    rcases le_or_lt P (n * B) with h | h
    · have h1 : min (n * B) P = P := by omega
      have h2 : min (n * B + B) P - n * B = 0 := by omega
      have h3 : min ((n + 1) * B) P = P := by
        have : n * B ≤ (n + 1) * B := by
          have := Nat.mul_le_mul_right B (Nat.le_succ n)
          simpa [Nat.succ_mul] using this
        omega
      simp [h1, h2, h3]
    · have h1 : min (n * B) P = n * B := by omega
      rw [h1]
      have happ := List.range'_append 0 (n * B) (min (n * B + B) P - n * B) 1
      simp only [Nat.one_mul, Nat.zero_add] at happ
      rw [happ]
      congr 1
      have : (n + 1) * B = n * B + B := by ring
      omega

/-- The ceiling in the iteration count covers all pages. -/
theorem ceil_mul_ge (B P : Nat) (hB : 0 < B) : P ≤ ((P + B - 1) / B) * B := by
  have hdm := Nat.div_add_mod (P + B - 1) B
  have hlt : (P + B - 1) % B < B := Nat.mod_lt _ hB
  rcases Nat.eq_zero_or_pos P with hP | hP
  · simp [hP]
  · set q := (P + B - 1) / B with hq
    set r := (P + B - 1) % B with hr
    have : B * q + r = P + B - 1 := hdm
    have hmul : q * B = B * q := Nat.mul_comm q B
    rw [hmul]
    omega

/-- C5: for every budget B and page count P exceeding it, the splitter
produces ceil(P / B) blocks, block k covering pages from k·B to
min((k+1)·B, P) in order, each of at most B pages, together covering the
page range exactly once in order and summing to P; and splitLargePdf maps a
PDF of P pages to exactly those chunks, named by appending the part suffix
to the original name. -/
theorem claim5_split_geometry (B P : Nat) (hB : 0 < B) (hP : B < P) :
    (splitIndices B P).length = (P + B - 1) / B ∧
    (splitIndices B P).flatten = List.range P ∧
    (∀ k, k < (P + B - 1) / B →
      (splitIndices B P).getD k [] =
        List.range' (k * B) (min (k * B + B) P - k * B) ∧
      ((splitIndices B P).getD k []).length ≤ B) ∧
    ((splitIndices B P).map List.length).sum = P ∧
    (∀ pc sub f, f.type = "application/pdf" → pc f = .ok P →
      MAX_PAGES_PER_BUCKET < P →
      splitLargePdf pc sub f =
        (List.range ((P + MAX_PAGES_PER_BUCKET - 1) / MAX_PAGES_PER_BUCKET)).map
          (fun k =>
            { f with
              name := partName f.name k
              base64 := sub f ((splitIndices MAX_PAGES_PER_BUCKET P).getD k []) })) := by
  have hflat : (splitIndices B P).flatten = List.range P := by
    unfold splitIndices
    rw [splitIndices_flatten_aux B P]
    have hge := ceil_mul_ge B P hB
    have hmin : min (((P + B - 1) / B) * B) P = P := by omega
    rw [hmin, List.range_eq_range']
  refine ⟨by simp [splitIndices], hflat, ?_, ?_, ?_⟩
  · intro k hk
    have hget : (splitIndices B P).getD k [] =
        List.range' (k * B) (min (k * B + B) P - k * B) := by
      unfold splitIndices
      rw [List.getD_eq_getElem?_getD, List.getElem?_map, List.getElem?_range hk]
      rfl
    refine ⟨hget, ?_⟩
    rw [hget, List.length_range']
    omega
  · have := congrArg List.length hflat
    rw [List.length_flatten, List.length_range] at this
    exact this
  · intro pc sub f ht hpc hPB
    have hnotle : ¬ P ≤ MAX_PAGES_PER_BUCKET := by omega
    simp [splitLargePdf, ht, hpc, hnotle]

/-- C5 witness: the splitting geometry and the splitter evaluated at budget
250 and a six-hundred-page document (three chunks). -/
theorem claim5_split_geometry_witness :
    (splitIndices 250 600).flatten = List.range 600 ∧
    splitLargePdf pcSix subBytes docA =
      (List.range ((600 + MAX_PAGES_PER_BUCKET - 1) / MAX_PAGES_PER_BUCKET)).map
        (fun k =>
          { docA with
            name := partName docA.name k
            base64 := subBytes docA ((splitIndices MAX_PAGES_PER_BUCKET 600).getD k []) }) := by
  have h := claim5_split_geometry 250 600 (by decide) (by decide)
  exact ⟨h.2.1, h.2.2.2.2 pcSix subBytes docA rfl rfl (by decide)⟩

/-- The sign group followed by its remainder is the input. -/
theorem splitSign_append (cs : List Char) : (splitSign cs).1 ++ (splitSign cs).2 = cs := by
  unfold splitSign
  split <;> rfl

/-- The fraction group followed by its remainder is the input. -/
theorem numFrac_append (l : List Char) : (numFrac l).1 ++ (numFrac l).2 = l := by
  unfold numFrac
  split
  next r =>
    dsimp only
    split
    next => rfl
    next => simp [List.takeWhile_append_dropWhile]
  next => rfl

/-- The exponent group followed by its remainder is the input. -/
theorem numExp_append (l : List Char) : (numExp l).1 ++ (numExp l).2 = l := by
  unfold numExp
  split
  next e r =>
    by_cases he : e = 'e' ∨ e = 'E'
    · simp only [he, if_true]
      rcases r with _ | ⟨c, r'⟩
      · simp
      · by_cases hc : c = '+' ∨ c = '-'
        · simp only [hc, if_true]
          split
          next => rfl
          next => simp [List.takeWhile_append_dropWhile]
        · simp only [hc, if_false]
          split
          next => rfl
          next => simp [List.takeWhile_append_dropWhile]
    · simp [he]
  next => rfl

/-- A successful numeric match is nonempty and splits its input. -/
theorem numMatch_append {cs lit rest : List Char} (h : numMatch cs = some (lit, rest)) :
    cs = lit ++ rest ∧ lit ≠ [] := by
  unfold numMatch at h
  dsimp only at h
  split at h
  next => cases h
  next hds =>
    injection h with h1
    injection h1 with hlit hrest
    subst hlit hrest
    constructor
    · conv_lhs => rw [← splitSign_append cs]
      conv_lhs => rw [← List.takeWhile_append_dropWhile Char.isDigit (splitSign cs).2]
      conv_lhs => rw [← numFrac_append ((splitSign cs).2.dropWhile Char.isDigit)]
      conv_lhs => rw [← numExp_append ((numFrac ((splitSign cs).2.dropWhile Char.isDigit)).2)]
      simp [List.append_assoc]
    · simp [hds]

/-- The scanner on the empty input is empty, at any fuel. -/
theorem sanitizeGo_nil (f : Nat) (q : Bool) (p : Option Char) : sanitizeGo f q p [] = [] := by
  cases f <;> rfl

/-- Dropping a whitespace prefix never lengthens a list. -/
theorem dropWhile_len (p : Char → Bool) (l : List Char) :
    (l.dropWhile p).length ≤ l.length :=
  (List.dropWhile_sublist p).length_le

/-- The scanner result does not depend on the fuel once the fuel reaches
the input length: every loop iteration consumes at least one character. -/
theorem sanitizeGo_fuel :
    ∀ (n : Nat) (cs : List Char), cs.length ≤ n →
      ∀ (f1 f2 : Nat) (q : Bool) (p : Option Char), cs.length ≤ f1 → cs.length ≤ f2 →
      sanitizeGo f1 q p cs = sanitizeGo f2 q p cs := by
  intro n
  induction n with
  | zero =>
    intro cs hcs f1 f2 q p _ _
    have hnil : cs = [] := List.length_eq_zero.mp (Nat.le_zero.mp hcs)
    subst hnil
    rw [sanitizeGo_nil, sanitizeGo_nil]
  | succ n ih =>
    intro cs hcs f1 f2 q p h1 h2
    cases cs with
    | nil => rw [sanitizeGo_nil, sanitizeGo_nil]
    | cons c rest =>
      have hrest : rest.length ≤ n := by
        simp only [List.length_cons] at hcs
        omega
      match f1, f2 with
      | 0, _ => simp at h1
      | _ + 1, 0 => simp at h2
      | f1 + 1, f2 + 1 =>
        have hr1 : rest.length ≤ f1 := by
          simp only [List.length_cons] at h1
          omega
        have hr2 : rest.length ≤ f2 := by
          simp only [List.length_cons] at h2
          omega
        simp only [sanitizeGo]
        by_cases hq : (c == '"' && p != some '\\') = true
        · simp only [hq, if_true]
          exact congrArg _ (ih rest hrest f1 f2 (!q) (some c) hr1 hr2)
        · simp only [hq, if_false, Bool.false_eq_true]
          by_cases hcl : (!q && (c == braceClose || c == ']')) = true
          · simp only [hcl, if_true]
            have hr' : (rest.dropWhile isJsWs).length ≤ rest.length := dropWhile_len _ _
            exact congrArg _ (congrArg _
              (ih (rest.dropWhile isJsWs) (by omega) f1 f2 q ((c :: rest.takeWhile isJsWs).getLast?)
                (by omega) (by omega)))
          · simp only [hcl, if_false, Bool.false_eq_true]
            by_cases hnq : (!q) = true
            · simp only [hnq, if_true]
              cases hm : numMatch (c :: rest) with
              | none =>
                simp only [hm]
                exact congrArg _ (ih rest hrest f1 f2 q (some c) hr1 hr2)
              | some pr =>
                obtain ⟨lit, rest'⟩ := pr
                simp only [hm]
                have hsplit := numMatch_append hm
                have hlt : rest'.length ≤ rest.length := by
                  have hlc := congrArg List.length hsplit.1
                  simp only [List.length_cons, List.length_append] at hlc
                  have hpos : 0 < lit.length := List.length_pos.mpr hsplit.2
                  omega
                exact congrArg (fun t => (replaceNum lit).data ++ t)
                  (ih rest' (by omega) f1 f2 q lit.getLast? (by omega) (by omega))
            · simp only [hnq, if_false, Bool.false_eq_true]
              exact congrArg _ (ih rest hrest f1 f2 q (some c) hr1 hr2)

/-- C10: the sanitizer scan terminates on every input — every iteration
strictly advances (a numeric match is nonempty and leaves a strictly shorter
rest, the structural branch never lengthens the remainder), so the scan is
insensitive to any fuel at least the input length and forensicJsonSanitize
is a total function of the input. -/
theorem claim10_scan_total :
    (∀ (cs : List Char) (f1 f2 : Nat) (q : Bool) (p : Option Char),
      cs.length ≤ f1 → cs.length ≤ f2 →
      sanitizeGo f1 q p cs = sanitizeGo f2 q p cs) ∧
    (∀ (s : String) (extra : Nat),
      String.mk (sanitizeGo (s.data.length + extra) false none s.data) =
        forensicJsonSanitize s) ∧
    (∀ (cs lit rest : List Char), numMatch cs = some (lit, rest) →
      lit ≠ [] ∧ rest.length < cs.length) ∧
    (∀ (l : List Char), (l.dropWhile isJsWs).length ≤ l.length) := by
  refine ⟨?_, ?_, ?_, ?_⟩
  · intro cs f1 f2 q p h1 h2
    exact sanitizeGo_fuel cs.length cs (Nat.le_refl _) f1 f2 q p h1 h2
  · intro s extra
    unfold forensicJsonSanitize
    exact congrArg String.mk
      (sanitizeGo_fuel s.data.length s.data (Nat.le_refl _)
        (s.data.length + extra) s.data.length false none (by omega) (by omega))
  · intro cs lit rest h
    obtain ⟨heq, hne⟩ := numMatch_append h
    refine ⟨hne, ?_⟩
    have hlc := congrArg List.length heq
    simp only [List.length_append] at hlc
    have hpos : 0 < lit.length := List.length_pos.mpr hne
    omega
  · intro l
    exact dropWhile_len isJsWs l

/-- C10 witness: fuel insensitivity and numeric-match progress evaluated on
concrete inputs. -/
theorem claim10_scan_total_witness :
    sanitizeGo 5 false none exPair.data = sanitizeGo 9 false none exPair.data ∧
    (['5'] ≠ [] ∧ ([] : List Char).length < [('5' : Char)].length) :=
  ⟨claim10_scan_total.1 exPair.data 5 9 false none (by decide) (by decide),
   claim10_scan_total.2.2.1 ['5'] ['5'] [] (by decide)⟩

/-- While the tracker is inside a quoted region, every character up to the
closing quote is copied verbatim (given no quote or backslash occurs in the
body). -/
theorem sanitizeGo_inquote :
    ∀ (cs : List Char) (f : Nat) (p : Option Char),
      (∀ c ∈ cs, c ≠ '"' ∧ c ≠ '\\') → p ≠ some '\\' → cs.length + 1 ≤ f →
      sanitizeGo f true p (cs ++ ['"']) = cs ++ ['"'] := by
  intro cs
  induction cs with
  | nil =>
    intro f p hch hp hf
    cases f with
    | zero => omega
    | succ fu =>
      have hb : (p != some '\\') = true := bne_iff_ne.mpr hp
      simp only [List.nil_append, sanitizeGo, hb, Bool.and_true]
      rw [if_pos (by rfl)]
      rw [sanitizeGo_nil]
  | cons c cs ih =>
    intro f p hch hp hf
    cases f with
    | zero => simp at hf
    | succ fu =>
      have hc := hch c (List.mem_cons_self c cs)
      have hq : (c == '"') = false := by
        simp [hc.1]
      simp only [List.cons_append, sanitizeGo, hq, Bool.false_and, Bool.false_eq_true,
        if_false, Bool.not_true]
      refine congrArg _ (ih fu (some c) ?_ ?_ ?_)
      · intro d hd
        exact hch d (List.mem_cons_of_mem c hd)
      · intro heq
        injection heq with heq2
        exact hc.2 heq2
      · simp only [List.length_cons] at hf
        omega

/-- C3 amended: the sanitizer's repairs apply only outside the regions its
quote tracker considers quoted, and tracked string content is copied
verbatim: a closer-opener pair outside quotes gains a comma, a quoted body
without backslashes is untouched — but the tracker treats any quote preceded
by a backslash as escaped, even an escaped backslash, so the guarantee holds
only for tracked regions (see the counterexample). -/
theorem claim3_tracked_quote_protection :
    forensicJsonSanitize exPair = exPairOut ∧
    forensicJsonSanitize exQuoted = exQuoted ∧
    (∀ s : String, (∀ c ∈ s.data, c ≠ '"' ∧ c ≠ '\\') →
      forensicJsonSanitize (quoteStr ++ s ++ quoteStr) = quoteStr ++ s ++ quoteStr) := by
  refine ⟨by decide, by decide, ?_⟩
  intro s h
  have hmk : ∀ t : String, String.mk t.data = t := fun ⟨d⟩ => rfl
  unfold forensicJsonSanitize
  have hdata : (quoteStr ++ s ++ quoteStr).data = '"' :: (s.data ++ ['"']) := by
    simp [quoteStr, String.data_append]
  rw [hdata]
  have hlen : ('"' :: (s.data ++ ['"'])).length = s.data.length + 1 + 1 := by simp
  rw [hlen]
  simp only [sanitizeGo]
  rw [if_pos (by rfl)]
  rw [show (!false) = true from rfl]
  rw [sanitizeGo_inquote s.data (s.data.length + 1) (some '"') h (by simp) (by omega)]
  rw [← hdata, hmk]

/-- C3 amended witness: the quoted closer-opener body evaluated concretely. -/
theorem claim3_tracked_quote_protection_witness :
    forensicJsonSanitize (quoteStr ++ exInner ++ quoteStr) = quoteStr ++ exInner ++ quoteStr :=
  claim3_tracked_quote_protection.2.2 exInner (by decide)

/-- The code's rounding equals the floor of the value plus one half,
JavaScript Math.round semantics (ties toward positive infinity). -/
theorem DecVal.jsRound_eq_floor (v : DecVal) : v.jsRound = ⌊v.toRat + 1 / 2⌋ := by
  unfold DecVal.jsRound DecVal.toRat
  have hcast : (v.num : ℚ) / ((10 : ℚ) ^ v.scale) + 1 / 2 =
      ((2 * v.num + ((10 ^ v.scale : Nat) : Int) : ℤ) : ℚ) / ((2 * 10 ^ v.scale : ℕ) : ℚ) := by
    have hne : ((10 : ℚ) ^ v.scale) ≠ 0 := by positivity
    push_cast
    field_simp
    ring
  rw [hcast, Rat.floor_intCast_div_natCast]
  rw [Int.fdiv_eq_ediv _ (by positivity)]
  congr 1

/-- Scaling tracks the rational value. -/
theorem DecVal.mulTenThousand_toRat (v : DecVal) :
    v.mulTenThousand.toRat = v.toRat * 10000 := by
  unfold DecVal.mulTenThousand DecVal.toRat
  by_cases h4 : 4 ≤ v.scale
  · simp only [h4, if_true]
    have hs : (10 : ℚ) ^ v.scale = (10 : ℚ) ^ (v.scale - 4) * 10 ^ 4 := by
      rw [← pow_add]
      congr 1
      omega
    rw [hs]
    have hne1 : ((10 : ℚ) ^ (v.scale - 4)) ≠ 0 := by positivity
    field_simp
    ring
  · simp only [h4, if_false]
    have hs : (10 : ℚ) ^ (4 - v.scale) * (10 : ℚ) ^ v.scale = 10 ^ 4 := by
      rw [← pow_add]
      congr 1
      omega
    have hne : ((10 : ℚ) ^ v.scale) ≠ 0 := by positivity
    push_cast
    field_simp
    calc (v.num : ℚ) * 10 ^ (4 - v.scale) * 10 ^ v.scale
        = (v.num : ℚ) * ((10 : ℚ) ^ (4 - v.scale) * 10 ^ v.scale) := by ring
      _ = (v.num : ℚ) * 10 ^ 4 := by rw [hs]
      _ = (v.num : ℚ) * 10000 := by norm_num

/-- A value of magnitude below 1e-15 is finite in binary64. -/
theorem DecVal.tiny_isFinite (v : DecVal) (h : |v.toRat| < 1 / 10 ^ 15) :
    v.isFiniteDouble = true := by
  unfold DecVal.isFiniteDouble
  have hpos : (0 : ℚ) < (10 : ℚ) ^ v.scale := by positivity
  have habs : |v.toRat| = (v.num.natAbs : ℚ) / (10 : ℚ) ^ v.scale := by
    unfold DecVal.toRat
    rw [abs_div, abs_of_pos hpos, Int.cast_natAbs, Int.cast_abs]
  rw [habs] at h
  have h2 : (v.num.natAbs : ℚ) * 10 ^ 15 < (10 : ℚ) ^ v.scale := by
    rw [div_lt_div_iff hpos (by positivity : (0:ℚ) < 10 ^ 15)] at h
    calc (v.num.natAbs : ℚ) * 10 ^ 15 < 1 * (10 : ℚ) ^ v.scale := h
      _ = (10 : ℚ) ^ v.scale := by ring
  have h3 : (v.num.natAbs : ℚ) < (10 : ℚ) ^ v.scale := by
    have : (1 : ℚ) ≤ 10 ^ 15 := by norm_num
    nlinarith [Nat.cast_nonneg (α := ℚ) v.num.natAbs]
  have h4 : v.num.natAbs < 10 ^ v.scale := by exact_mod_cast h3
  have h5 : (10 : ℕ) ^ v.scale ≤ 2 ^ 1024 * 10 ^ v.scale := by
    have : (1 : ℕ) ≤ 2 ^ 1024 := Nat.one_le_two_pow
    calc (10 : ℕ) ^ v.scale = 1 * 10 ^ v.scale := by ring
      _ ≤ 2 ^ 1024 * 10 ^ v.scale := by
        exact Nat.mul_le_mul_right _ this
  simp only [decide_eq_true_eq]
  omega

/-- A value of magnitude below 1e-15 rounds to zero at four decimals. -/
theorem DecVal.tiny_rounds_zero (v : DecVal) (h : |v.toRat| < 1 / 10 ^ 15) :
    v.mulTenThousand.jsRound = 0 := by
  rw [DecVal.jsRound_eq_floor, DecVal.mulTenThousand_toRat]
  have h1 : |v.toRat * 10000| < 1 / 2 := by
    rw [abs_mul]
    have : |(10000 : ℚ)| = 10000 := by norm_num
    rw [this]
    calc |v.toRat| * 10000 < (1 / 10 ^ 15) * 10000 := by
          apply mul_lt_mul_of_pos_right h
          norm_num
      _ < 1 / 2 := by norm_num
  have h2 := abs_lt.mp h1
  apply Int.floor_eq_zero_iff.mpr
  constructor
  · linarith [h2.1]
  · simpa using by linarith [h2.2]

/-- C2 amended: the sanitizer's numeric rule — the cited positive examples
hold (0.123456789 becomes 0.1235, 1e-20 becomes 0), rounding is
floor(x + 1/2) (Math.round, ties toward positive infinity) so -0.00005
becomes 0 rather than -0.0001, and every literal whose value has magnitude
below 1e-15 is replaced by 0. -/
theorem claim2_numeric_rule :
    forensicJsonSanitize exRound = exRoundOut ∧
    forensicJsonSanitize exTiny = exTinyOut ∧
    forensicJsonSanitize exNegHalf = exNegHalfOut ∧
    (∀ v : DecVal, DecVal.jsRound v = ⌊v.toRat + 1 / 2⌋) ∧
    (∀ lit : List Char, |(parseDec lit).toRat| < 1 / 10 ^ 15 → replaceNum lit = "0") := by
  refine ⟨by decide, by decide, by decide, DecVal.jsRound_eq_floor, ?_⟩
  intro lit h
  unfold replaceNum
  dsimp only
  rw [DecVal.tiny_isFinite _ h]
  rw [if_pos rfl, DecVal.tiny_rounds_zero _ h]
  rfl

/-- C2 amended witness: the tiny-magnitude rule applied to the literal
1e-20. -/
theorem claim2_numeric_rule_witness :
    replaceNum ['1', 'e', '-', '2', '0'] = "0" :=
  claim2_numeric_rule.2.2.2.2 ['1', 'e', '-', '2', '0'] (by
    have hp : parseDec ['1', 'e', '-', '2', '0'] = ⟨1, 20⟩ := by decide
    rw [hp]
    rw [show DecVal.toRat ⟨1, 20⟩ = 1 / 10 ^ 20 from rfl]
    rw [abs_of_pos (by norm_num)]
    norm_num)

/-- C9 amended: sanitization is idempotent at the level of rounded numeric
values — re-rounding a once-rounded value k/10000 yields k again — and texts
whose numeric literals are already in canonical four-decimal form, such as
the object holding 0.1235, are fixed points of the text pipeline; but the
full pipeline is not idempotent on all sanitized valid texts (see the
counterexample, where a sanitizer output still holds a five-decimal
literal). -/
theorem claim9_value_idempotence :
    (∀ v : DecVal,
      (DecVal.mk v.mulTenThousand.jsRound 4).mulTenThousand.jsRound =
        v.mulTenThousand.jsRound) ∧
    sanitizePipelineText exFixed = .ok exFixed := by
  constructor
  · intro v
    set k := v.mulTenThousand.jsRound with hk
    have h1 : (DecVal.mk k 4).mulTenThousand = DecVal.mk k 0 := by
      unfold DecVal.mulTenThousand
      simp
    rw [h1, DecVal.jsRound_eq_floor]
    have h2 : (DecVal.mk k 0).toRat = (k : ℚ) := by
      unfold DecVal.toRat
      simp
    rw [h2, add_comm, Int.floor_add_int]
    norm_num
  · rfl
